import Mathlib

/-!
Verification of the data-filtering and aggregation pipeline of
`interactivedash.py` (interactive sales dashboard).

The script is a linear pandas pipeline: load a table, filter it by a
date range, three multi-select value sets and a free-text search, compute
KPI scalars (sum / count / mean of TotalSales and Quantity), grouped sums
over seven dimensions, gate chart rendering on non-emptiness, and export
the filtered rows as CSV.

The embedding below models a pandas DataFrame as a `List Row`, dates as
(year, month, day) triples with the calendar (lexicographic) order,
monetary amounts (`TotalSales`) as integers and means as rationals
(`Option ℚ`, with `none` standing for pandas' NaN on an empty column).
Each definition carries the line numbers of the source it embeds.
-/

namespace Dash

/-- A calendar date, as produced by `pd.to_datetime` on the `Date` column
(interactivedash.py line 15).  Ordered lexicographically, which matches
the order on `pd.Timestamp` for valid calendar dates. -/
structure Date where
  year : Int
  month : Nat
  day : Nat
deriving DecidableEq, Repr

/-- The order on dates used by `Series.between` (line 69):
lexicographic on (year, month, day). -/
def dateLE (a b : Date) : Bool :=
  if a.year ≠ b.year then a.year < b.year
  else if a.month ≠ b.month then a.month < b.month
  else a.day ≤ b.day

/-- One row of the loaded table: the CSV columns `Date, Region, Category,
Customer, Product, Quantity, TotalSales` plus the synthesized `Country`
column (lines 14–19).  `Quantity` is a non-negative integer and
`TotalSales` a monetary amount, modelled as `Int`. -/
structure Row where
  date : Date
  region : String
  category : String
  customer : String
  product : String
  quantity : Nat
  totalSales : Int
  country : String
deriving DecidableEq, Repr

/-- Light/Dark theme radio control (line 59). -/
inductive Theme where
  | Light
  | Dark
deriving DecidableEq, Repr

/-- The Filter Selection: the sidebar state rebuilt on every interaction.
`dateRange` is the list returned by the date-range picker (line 32;
one element when the user has picked only a start date, two for a full
range); the three value sets come from the multiselects (lines 38–56);
`searchTerm` from the text input (line 76); `theme` from the radio
(line 59). -/
structure Selection where
  dateRange : List Date
  regionSet : List String
  categorySet : List String
  customerSet : List String
  searchTerm : String
  theme : Theme
deriving Repr

/-- `start_date = pd.to_datetime(date_range[0])` (line 65): the first
element of the date-range list. -/
def start_date (dr : List Date) : Date :=
  dr.headD ⟨0, 0, 0⟩

/-- `end_date = pd.to_datetime(date_range[-1])` (line 66): the last
element of the date-range list. -/
def end_date (dr : List Date) : Date :=
  dr.getLastD ⟨0, 0, 0⟩

/-- The date/set filter step (lines 68–73): keep rows whose Date lies
between `start_date` and `end_date` inclusive (`Series.between`) and
whose Region / Category / Customer each occur in the corresponding
selected list (`Series.isin`). -/
def df_filtered_base (df : List Row) (sel : Selection) : List Row :=
  df.filter fun r =>
    dateLE (start_date sel.dateRange) r.date &&
    dateLE r.date (end_date sel.dateRange) &&
    sel.regionSet.contains r.region &&
    sel.categorySet.contains r.category &&
    sel.customerSet.contains r.customer

/-- Lowercase a string, character by character. -/
def lowerChars (s : String) : List Char :=
  s.data.map Char.toLower

/-- Case-insensitive substring test, modelling
`Series.str.contains(term, case=False)` (lines 79–80) applied to a
literal search term: lowercase both sides and test substring
containment. -/
def strContainsCI (hay needle : String) : Bool :=
  decide (List.IsInfix (lowerChars needle) (lowerChars hay))

/-- The search refinement (lines 76–81): Python's `if search_term:` is
false exactly on the empty string, so an empty term leaves the view
unchanged; otherwise keep rows whose Product or Customer contains the
term case-insensitively (OR semantics). -/
def applySearch (term : String) (v : List Row) : List Row :=
  if term = "" then v
  else v.filter fun r =>
    strContainsCI r.product term || strContainsCI r.customer term

/-- The full Filtered View `df_filtered` (lines 68–81): the date/set
filter followed by the search refinement. -/
def df_filtered (df : List Row) (sel : Selection) : List Row :=
  applySearch sel.searchTerm (df_filtered_base df sel)

/-- `total_sales = df_filtered["TotalSales"].sum()` (line 86); pandas'
sum of an empty column is 0. -/
def total_sales (v : List Row) : Int :=
  (v.map Row.totalSales).sum

/-- `total_quantity = df_filtered["Quantity"].sum()` (line 87). -/
def total_quantity (v : List Row) : Nat :=
  (v.map Row.quantity).sum

/-- `avg_order_value = df_filtered["TotalSales"].mean()` (line 88);
pandas' mean of an empty column is NaN, modelled as `none`. -/
def avg_order_value (v : List Row) : Option ℚ :=
  if v.length = 0 then none
  else some ((total_sales v : ℚ) / (v.length : ℚ))

/-- The average-order KPI as displayed by
`col3.metric("📊 Avg. Order Value", f"${avg_order_value:,.2f}")`
(line 93).  The code applies Python float formatting directly to
`avg_order_value` with no emptiness guard; formatting NaN yields the
literal text `nan`, so the metric reads `$nan` on an empty view.  The
non-NaN branch renders the exact rational rather than Python's
comma-grouped two-decimal float text; only the NaN branch matters to
the claims. -/
def kpiAvgText (v : List Row) : String :=
  match avg_order_value v with
  | none => "$nan"
  | some q => "$" ++ toString q

/-- `df_filtered.groupby(k)["TotalSales"].sum()` for a key function `k`:
one entry per distinct key occurring in the view, paired with the sum of
`TotalSales` over the rows having that key (lines 103, 110, 121, 129,
136, 145, 154).  Keys are listed in order of first occurrence; pandas
sorts them, which is irrelevant to every claim about these tables. -/
def groupedSum {α : Type} [DecidableEq α] (k : Row → α) (v : List Row) :
    List (α × Int) :=
  (v.map k).dedup.map fun g =>
    (g, ((v.filter fun r => k r = g).map Row.totalSales).sum)

/-- The month key `df_filtered["Date"].dt.to_period("M")` (line 110):
the (year, month) pair of the date. -/
def monthKey (d : Date) : Int × Nat :=
  (d.year, d.month)

/-- Stable descending insertion by summed value: a later entry overtakes
an earlier one only when its value is strictly larger, matching
`nlargest`'s default `keep='first'` tie-breaking. -/
def insertDesc (x : String × Int) : List (String × Int) → List (String × Int)
  | [] => [x]
  | y :: ys => if y.2 < x.2 then x :: y :: ys else y :: insertDesc x ys

/-- Stable descending sort by summed value. -/
def sortDesc : List (String × Int) → List (String × Int)
  | [] => []
  | x :: xs => insertDesc x (sortDesc xs)

/-- `.nlargest(n)` on a grouped sum (lines 136, 145): the `n` entries
with the largest values, in descending order. -/
def nlargest (n : Nat) (l : List (String × Int)) : List (String × Int) :=
  (sortDesc l).take n

/-- `top_products = df_filtered.groupby("Product")["TotalSales"].sum().nlargest(10)`
(line 136). -/
def top_products (v : List Row) : List (String × Int) :=
  nlargest 10 (groupedSum Row.product v)

/-- `top_customers = df_filtered.groupby("Customer")["TotalSales"].sum().nlargest(10)`
(line 145). -/
def top_customers (v : List Row) : List (String × Int) :=
  nlargest 10 (groupedSum Row.customer v)

/-- Sum of the per-group summed values of a grouped table. -/
def sumVals {α : Type} (l : List (α × Int)) : Int :=
  (l.map Prod.snd).sum

/-- The chart template string (lines 105, 115, 123, 131, 140, 148, 162):
`"plotly_dark" if theme == "Dark" else "plotly_white"`. -/
def template (t : Theme) : String :=
  match t with
  | .Dark => "plotly_dark"
  | .Light => "plotly_white"

/-- One rendered chart: its grouped data together with the selected
template.  Keys are heterogeneous across charts, so each chart kind is
its own constructor. -/
inductive Chart where
  | salesOverTime (data : List (Date × Int)) (tmpl : String)
  | monthlyTrend (data : List ((Int × Nat) × Int)) (tmpl : String)
  | byRegion (data : List (String × Int)) (tmpl : String)
  | byCategory (data : List (String × Int)) (tmpl : String)
  | topProducts (data : List (String × Int)) (tmpl : String)
  | topCustomers (data : List (String × Int)) (tmpl : String)
  | byCountry (data : List (String × Int)) (tmpl : String)
deriving DecidableEq, Repr

/-- The chart section (lines 100–165): the single `if not
df_filtered.empty:` gate guards all seven chart-rendering steps, so an
empty view renders no chart at all and a non-empty view renders all
seven. -/
def charts (t : Theme) (v : List Row) : List Chart :=
  if v.isEmpty then []
  else
    [ .salesOverTime (groupedSum Row.date v) (template t),
      .monthlyTrend (groupedSum (fun r => monthKey r.date) v) (template t),
      .byRegion (groupedSum Row.region v) (template t),
      .byCategory (groupedSum Row.category v) (template t),
      .topProducts (top_products v) (template t),
      .topCustomers (top_customers v) (template t),
      .byCountry (groupedSum Row.country v) (template t) ]

/-- Everything the pipeline derives from the table and the Filter
Selection apart from visual styling: the Filtered View, the KPI scalars
(lines 86–88) and the grouped tables of the chart and summary sections
(lines 103–154, 177, 181). -/
structure PipelineData where
  filtered : List Row
  totalSales : Int
  totalQuantity : Nat
  avgOrder : Option ℚ
  byDay : List (Date × Int)
  byMonth : List ((Int × Nat) × Int)
  byRegion : List (String × Int)
  byCategory : List (String × Int)
  topProds : List (String × Int)
  topCusts : List (String × Int)
  byCountry : List (String × Int)
deriving Repr

/-- The data half of one full pipeline run: filter, KPIs, grouped
tables.  The theme enters the run only through `template` inside
`charts`; no step here reads it. -/
def pipelineData (df : List Row) (sel : Selection) : PipelineData :=
  let v := df_filtered df sel
  { filtered := v
    totalSales := total_sales v
    totalQuantity := total_quantity v
    avgOrder := avg_order_value v
    byDay := groupedSum Row.date v
    byMonth := groupedSum (fun r => monthKey r.date) v
    byRegion := groupedSum Row.region v
    byCategory := groupedSum Row.category v
    topProds := top_products v
    topCusts := top_customers v
    byCountry := groupedSum Row.country v }

/-! ### Concrete data for witnesses and examples -/

/-- First row of the spec's worked example. -/
def exRow1 : Row :=
  ⟨⟨2024, 1, 1⟩, "US", "A", "X", "Widget", 2, 20, "United States"⟩

/-- Second row of the spec's worked example. -/
def exRow2 : Row :=
  ⟨⟨2024, 2, 1⟩, "EU", "B", "Y", "Gadget", 1, 15, "United Kingdom"⟩

/-- The spec example's Filter Selection: date range covering both rows,
all categories and customers selected, region narrowed to US, empty
search term. -/
def exSel : Selection :=
  ⟨[⟨2024, 1, 1⟩, ⟨2024, 2, 1⟩], ["US"], ["A", "B"], ["X", "Y"], "", .Light⟩

/-- A variant of `exSel` with all regions selected and a non-empty
search term. -/
def exSelSearch : Selection :=
  ⟨[⟨2024, 1, 1⟩, ⟨2024, 2, 1⟩], ["US", "EU"], ["A", "B"], ["X", "Y"], "WID", .Light⟩

/-! ### Helper lemmas -/

/-- The lexicographic date order is antisymmetric. -/
lemma dateLE_antisymm {a b : Date} (h1 : dateLE a b = true)
    (h2 : dateLE b a = true) : a = b := by
  cases a; cases b
  simp only [dateLE] at h1 h2
  split_ifs at h1 h2 <;> simp_all <;> omega

/-- Membership in the date/set filter step, unfolded. -/
lemma mem_df_filtered_base {df : List Row} {sel : Selection} {r : Row} :
    r ∈ df_filtered_base df sel ↔
      r ∈ df ∧
      dateLE (start_date sel.dateRange) r.date = true ∧
      dateLE r.date (end_date sel.dateRange) = true ∧
      r.region ∈ sel.regionSet ∧
      r.category ∈ sel.categorySet ∧
      r.customer ∈ sel.customerSet := by
  simp [df_filtered_base, List.mem_filter, List.elem_iff, and_assoc]

/-- The search refinement only discards rows. -/
lemma mem_of_mem_applySearch {t : String} {v : List Row} {r : Row}
    (h : r ∈ applySearch t v) : r ∈ v := by
  unfold applySearch at h
  split at h
  · exact h
  · exact (List.mem_filter.mp h).1

/-- The search refinement of the empty view is empty. -/
lemma applySearch_nil (t : String) : applySearch t [] = [] := by
  unfold applySearch
  split <;> rfl

/-! ### Claim theorems -/

/-- C1: every row of the Filtered View produced by the filter step has
its Date within [start, end] inclusive, its Region in the selected
region set, its Category in the selected category set and its Customer
in the selected customer set. -/
theorem c1_filter_step_sound (df : List Row) (sel : Selection) (r : Row)
    (hr : r ∈ df_filtered df sel) :
    dateLE (start_date sel.dateRange) r.date = true ∧
    dateLE r.date (end_date sel.dateRange) = true ∧
    r.region ∈ sel.regionSet ∧
    r.category ∈ sel.categorySet ∧
    r.customer ∈ sel.customerSet :=
  (mem_df_filtered_base.mp (mem_of_mem_applySearch hr)).2

/-- Witness for C1 at the spec example's data. -/
theorem c1_filter_step_sound_witness :
    dateLE (start_date exSel.dateRange) exRow1.date = true ∧
    dateLE exRow1.date (end_date exSel.dateRange) = true ∧
    exRow1.region ∈ exSel.regionSet ∧
    exRow1.category ∈ exSel.categorySet ∧
    exRow1.customer ∈ exSel.customerSet :=
  c1_filter_step_sound [exRow1, exRow2] exSel exRow1 (by decide)

/-- C2: an empty search term leaves the date/set-filtered result
unchanged; a non-empty term keeps exactly the rows whose Product or
Customer contains the term as a case-insensitive substring (OR
semantics). -/
theorem c2_search_semantics (df : List Row) (sel : Selection) :
    (sel.searchTerm = "" → df_filtered df sel = df_filtered_base df sel) ∧
    (sel.searchTerm ≠ "" → ∀ r, r ∈ df_filtered df sel ↔
       r ∈ df_filtered_base df sel ∧
       (List.IsInfix (lowerChars sel.searchTerm) (lowerChars r.product) ∨
        List.IsInfix (lowerChars sel.searchTerm) (lowerChars r.customer))) := by
  constructor
  · intro h
    simp [df_filtered, applySearch, h]
  · intro h r
    simp [df_filtered, applySearch, h, List.mem_filter, strContainsCI,
      Bool.or_eq_true, decide_eq_true_iff]

/-- Witness for C2: with the search term `"WID"` the example data keeps
exactly the Widget row (case-insensitive match), exercising both the
non-empty branch and, at `exSel`, the empty branch. -/
theorem c2_search_semantics_witness :
    df_filtered [exRow1, exRow2] exSel = df_filtered_base [exRow1, exRow2] exSel ∧
    exRow1 ∈ df_filtered [exRow1, exRow2] exSelSearch :=
  ⟨(c2_search_semantics [exRow1, exRow2] exSel).1 rfl,
   ((c2_search_semantics [exRow1, exRow2] exSelSearch).2 (by decide) exRow1).mpr
     ⟨by decide, Or.inl (by decide)⟩⟩

/-- C3: an empty selected region, category or customer set makes the
Filtered View empty — an empty multiselect never means "match all". -/
theorem c3_empty_selection_empty_view (df : List Row) (sel : Selection)
    (h : sel.regionSet = [] ∨ sel.categorySet = [] ∨ sel.customerSet = []) :
    df_filtered df sel = [] := by
  have hbase : df_filtered_base df sel = [] := by
    rcases h with h | h | h <;> simp [df_filtered_base, h]
  rw [df_filtered, hbase, applySearch_nil]

/-- Witness for C3 with an empty region set. -/
theorem c3_empty_selection_empty_view_witness :
    df_filtered [exRow1, exRow2]
      ⟨[⟨2024, 1, 1⟩, ⟨2024, 2, 1⟩], [], ["A", "B"], ["X", "Y"], "", .Light⟩ = [] :=
  c3_empty_selection_empty_view [exRow1, exRow2] _ (Or.inl rfl)

/-- C6: on the spec's two-row example, with region narrowed to {US},
the pipeline yields exactly the first row, total sales 20, total
quantity 2 and average order value 20. -/
theorem c6_worked_example :
    df_filtered [exRow1, exRow2] exSel = [exRow1] ∧
    total_sales (df_filtered [exRow1, exRow2] exSel) = 20 ∧
    total_quantity (df_filtered [exRow1, exRow2] exSel) = 2 ∧
    avg_order_value (df_filtered [exRow1, exRow2] exSel) = some 20 := by
  refine ⟨by decide, by decide, by decide, ?_⟩
  have h : df_filtered [exRow1, exRow2] exSel = [exRow1] := by decide
  rw [h]
  norm_num [avg_order_value, total_sales, exRow1]

/-- C10: a single-element date range uses that one date as both start
and end, so the filter keeps only rows dated exactly that day; in a
two-element range the first element is the start and the second the
end. -/
theorem c10_date_range_endpoints :
    (∀ (d : Date) (df : List Row) (sel : Selection), sel.dateRange = [d] →
       ∀ r ∈ df_filtered_base df sel, r.date = d) ∧
    (∀ d1 d2 : Date, start_date [d1, d2] = d1 ∧ end_date [d1, d2] = d2) := by
  constructor
  · intro d df sel hdr r hr
    have h := (mem_df_filtered_base.mp hr).2
    rw [hdr] at h
    exact (dateLE_antisymm h.1 h.2.1).symm
  · intro d1 d2
    exact ⟨rfl, rfl⟩

/-- Witness for C10: a singleton date range at the example data keeps
only the first row, whose date is exactly the picked day. -/
theorem c10_date_range_endpoints_witness :
    exRow1.date = ⟨2024, 1, 1⟩ :=
  c10_date_range_endpoints.1 ⟨2024, 1, 1⟩ [exRow1, exRow2]
    ⟨[⟨2024, 1, 1⟩], ["US", "EU"], ["A", "B"], ["X", "Y"], "", .Light⟩
    rfl exRow1 (by decide)

/-! ### Grouped-sum partition lemmas -/

/-- Splitting `total_sales` along a Boolean predicate. -/
lemma total_sales_filter_split (v : List Row) (p : Row → Bool) :
    total_sales (v.filter p) + total_sales (v.filter fun r => !p r) =
      total_sales v := by
  induction v with
  | nil => rfl
  | cons x xs ih =>
    by_cases hx : p x = true
    · simp [total_sales, List.filter_cons, hx] at ih ⊢
      omega
    · simp only [Bool.not_eq_true] at hx
      simp [total_sales, List.filter_cons, hx] at ih ⊢
      omega

/-- Summing per-group filtered totals over any duplicate-free list of
groups that covers every key of the view recovers the total. -/
lemma sum_group_totals {α : Type} [DecidableEq α] (k : Row → α)
    (gs : List α) (v : List Row) (hnd : gs.Nodup)
    (hall : ∀ r ∈ v, k r ∈ gs) :
    (gs.map fun g => ((v.filter fun r => k r = g).map Row.totalSales).sum).sum
      = total_sales v := by
  induction gs generalizing v with
  | nil =>
    cases v with
    | nil => rfl
    | cons x xs => exact absurd (hall x (by simp)) (by simp)
  | cons g gs ih =>
    have hnd' : gs.Nodup := hnd.of_cons
    have hg : g ∉ gs := by
      have := List.nodup_cons.mp hnd
      exact this.1
    set v' := v.filter (fun r => !(decide (k r = g))) with hv'
    have hall' : ∀ r ∈ v', k r ∈ gs := by
      intro r hr
      have hrv := List.mem_filter.mp hr
      have h1 : k r ∈ g :: gs := hall r hrv.1
      have h2 : ¬ (k r = g) := by
        have := hrv.2
        simpa using this
      rcases List.mem_cons.mp h1 with h | h
      · exact absurd h h2
      · exact h
    have hsame : ∀ g' ∈ gs,
        (v.filter fun r => k r = g') = (v'.filter fun r => k r = g') := by
      intro g' hg'
      rw [hv', List.filter_filter]
      apply List.filter_congr
      intro r _
      by_cases h : k r = g'
      · have hne : ¬ g' = g := fun hh => hg (hh ▸ hg')
        simp [h, hne]
      · simp [h]
    have hmap :
        (gs.map fun g' => ((v.filter fun r => k r = g').map Row.totalSales).sum)
          = gs.map fun g' => ((v'.filter fun r => k r = g').map Row.totalSales).sum := by
      apply List.map_congr_left
      intro g' hg'
      rw [hsame g' hg']
    calc ((g :: gs).map fun g' =>
            ((v.filter fun r => k r = g').map Row.totalSales).sum).sum
        = ((v.filter fun r => k r = g).map Row.totalSales).sum
            + (gs.map fun g' =>
                ((v.filter fun r => k r = g').map Row.totalSales).sum).sum := by
          simp
      _ = ((v.filter fun r => k r = g).map Row.totalSales).sum
            + total_sales v' := by
          rw [hmap, ih v' hnd' hall']
      _ = total_sales v := by
          have := total_sales_filter_split v (fun r => decide (k r = g))
          simpa [total_sales, hv'] using this

/-- A grouped sum loses no rows and double-counts none: the per-group
sums add up to the view's total. -/
lemma sumVals_groupedSum {α : Type} [DecidableEq α] (k : Row → α)
    (v : List Row) : sumVals (groupedSum k v) = total_sales v := by
  unfold sumVals groupedSum
  rw [List.map_map]
  have h := sum_group_totals k (v.map k).dedup v (List.nodup_dedup _)
    (fun r hr => List.mem_dedup.mpr (List.mem_map_of_mem k hr))
  simpa [Function.comp] using h

/-- Inserting into a descending-sorted list is a permutation of
consing. -/
lemma insertDesc_perm (x : String × Int) (l : List (String × Int)) :
    List.Perm (insertDesc x l) (x :: l) := by
  induction l with
  | nil => rfl
  | cons y ys ih =>
    unfold insertDesc
    split
    · rfl
    · exact (ih.cons y).trans (List.Perm.swap x y ys)

/-- `sortDesc` permutes its input. -/
lemma sortDesc_perm (l : List (String × Int)) :
    List.Perm (sortDesc l) l := by
  induction l with
  | nil => rfl
  | cons x xs ih => exact (insertDesc_perm x (sortDesc xs)).trans (ih.cons x)

/-- Summed values are preserved under permutation. -/
lemma sumVals_perm {l l' : List (String × Int)} (h : List.Perm l l') :
    sumVals l = sumVals l' :=
  List.Perm.sum_eq (List.Perm.map Prod.snd h)

/-- A row of the `nlargest` counterexample: one unit of sales for the
given product. -/
def mkRowP (p : String) : Row :=
  ⟨⟨2024, 1, 1⟩, "US", "A", "X", p, 1, 1, "India"⟩

/-- Eleven rows with eleven distinct products, one sales unit each. -/
def cexView : List Row :=
  ["a", "b", "c", "d", "e", "f", "g", "h", "i", "j", "k"].map mkRowP

/-! ### Claim theorems (continued) -/

/-- C4 counterexample: on the empty Filtered View the average order
value is NaN (`none`) and the display step applies no guard, so the
average-order KPI reads `$nan` — neither zero nor blank.  (Total sales
is indeed 0.) -/
theorem c4_counterexample :
    avg_order_value ([] : List Row) = none ∧
    kpiAvgText [] = "$nan" ∧
    kpiAvgText [] ≠ "$0.00" ∧
    kpiAvgText [] ≠ "" ∧
    total_sales ([] : List Row) = 0 :=
  ⟨rfl, rfl, by decide, by decide, rfl⟩

/-- C4 amended: on an empty Filtered View total sales and total
quantity are 0 and the average order value is NaN (`none`); the code
displays it without a guard, so the average-order KPI shows `$nan`
rather than zero/blank. -/
theorem c4_empty_kpis_amended (v : List Row) (h : v = []) :
    total_sales v = 0 ∧ total_quantity v = 0 ∧
    avg_order_value v = none ∧ kpiAvgText v = "$nan" := by
  subst h
  exact ⟨rfl, rfl, rfl, rfl⟩

/-- Witness for C4 (amended) at the empty view. -/
theorem c4_empty_kpis_amended_witness :
    total_sales ([] : List Row) = 0 ∧ total_quantity ([] : List Row) = 0 ∧
    avg_order_value ([] : List Row) = none ∧ kpiAvgText [] = "$nan" :=
  c4_empty_kpis_amended [] rfl

/-- C5 counterexample: with eleven distinct products of one sales unit
each, the top-10 products table sums to 10 while the view's total is
11, so the claim's "each of the grouped-sum dimensions" fails for the
top-10 dimensions. -/
theorem c5_counterexample :
    sumVals (top_products cexView) ≠ total_sales cexView ∧
    sumVals (top_products cexView) = 10 ∧
    total_sales cexView = 11 := by
  refine ⟨?_, by decide, by decide⟩
  decide

/-- C5 amended: for the full grouping dimensions (by day, by month, by
region, by category, by country) the per-group sums add up exactly to
the view's total TotalSales; for the two top-10 dimensions this holds
whenever the view has at most 10 distinct products (resp. customers),
and in general the top-10 table sums only its own 10 groups. -/
theorem c5_grouped_sums_amended (v : List Row) :
    sumVals (groupedSum Row.date v) = total_sales v ∧
    sumVals (groupedSum (fun r => monthKey r.date) v) = total_sales v ∧
    sumVals (groupedSum Row.region v) = total_sales v ∧
    sumVals (groupedSum Row.category v) = total_sales v ∧
    sumVals (groupedSum Row.country v) = total_sales v ∧
    ((v.map Row.product).dedup.length ≤ 10 →
      sumVals (top_products v) = total_sales v) ∧
    ((v.map Row.customer).dedup.length ≤ 10 →
      sumVals (top_customers v) = total_sales v) := by
  refine ⟨sumVals_groupedSum _ v, sumVals_groupedSum _ v,
    sumVals_groupedSum _ v, sumVals_groupedSum _ v,
    sumVals_groupedSum _ v, ?_, ?_⟩
  · intro h
    unfold top_products nlargest
    have hlen : (sortDesc (groupedSum Row.product v)).length ≤ 10 := by
      rw [(sortDesc_perm _).length_eq]
      unfold groupedSum
      rw [List.length_map]
      exact h
    rw [List.take_of_length_le hlen, sumVals_perm (sortDesc_perm _)]
    exact sumVals_groupedSum Row.product v
  · intro h
    unfold top_customers nlargest
    have hlen : (sortDesc (groupedSum Row.customer v)).length ≤ 10 := by
      rw [(sortDesc_perm _).length_eq]
      unfold groupedSum
      rw [List.length_map]
      exact h
    rw [List.take_of_length_le hlen, sumVals_perm (sortDesc_perm _)]
    exact sumVals_groupedSum Row.customer v

/-- Witness for C5 (amended): the example view has two distinct
products, so its top-10 table sums to the full total. -/
theorem c5_grouped_sums_amended_witness :
    (([exRow1, exRow2].map Row.product).dedup.length ≤ 10) ∧
    sumVals (top_products [exRow1, exRow2]) = total_sales [exRow1, exRow2] :=
  ⟨by decide,
   (c5_grouped_sums_amended [exRow1, exRow2]).2.2.2.2.2.1 (by decide)⟩

/-- C7: two runs whose Filter Selections differ only in the theme flag
produce the same Filtered View, the same KPI scalars and the same
grouped tables — the theme reaches only the chart templates. -/
theorem c7_theme_noninterference (df : List Row) (dr : List Date)
    (rs cs cu : List String) (term : String) (t1 t2 : Theme) :
    pipelineData df ⟨dr, rs, cs, cu, term, t1⟩ =
      pipelineData df ⟨dr, rs, cs, cu, term, t2⟩ :=
  rfl

/-- C9: the seven chart-rendering steps are skipped, via the single
`if not df_filtered.empty` gate, exactly when the Filtered View is
empty. -/
theorem c9_chart_gate (t : Theme) (v : List Row) :
    charts t v = [] ↔ v = [] := by
  unfold charts
  cases v <;> simp

/-! ### CSV export and re-parse (claim C8)

`convert_df` (lines 192–194) is `df.to_csv(index=False).encode('utf-8')`;
the serialization itself and the re-parse of the export live in pandas,
outside this repository.  Modelled from the spec: "CSV export of the
currently filtered rows, UTF-8 encoded, same schema plus synthesized
Country" — a header line followed by one comma-separated line per row,
with the standard CSV minimal quoting (a field containing a comma,
double quote or newline is wrapped in double quotes, inner quotes
doubled), and a standard streaming CSV reader as the re-parser.
Text is modelled at the level of character lists. -/

/-- A field must be quoted when it contains a delimiter, a quote or a
line break (CSV minimal quoting). -/
def needsQuote (f : List Char) : Bool :=
  f.any fun c => c = ',' || c = '"' || c = '\n'

/-- Double every inner quote of a quoted field. -/
def escQ : List Char → List Char
  | [] => []
  | c :: cs => if c = '"' then '"' :: '"' :: escQ cs else c :: escQ cs

/-- Encode one field: quote it exactly when needed. -/
def encField (f : List Char) : List Char :=
  if needsQuote f then '"' :: (escQ f ++ ['"']) else f

/-- Join encoded fields with commas. -/
def joinFields : List (List Char) → List Char
  | [] => []
  | [f] => f
  | f :: fs => f ++ ',' :: joinFields fs

/-- Encode one record: comma-joined fields terminated by a newline. -/
def encRecord (fs : List (List Char)) : List Char :=
  joinFields (fs.map encField) ++ ['\n']

/-- The whole CSV text: concatenation of the encoded records. -/
def writeCSV (records : List (List (List Char))) : List Char :=
  (records.map encRecord).flatten

/-- State of the streaming CSV reader: whether we are inside a quoted
section, whether the previous character was a quote seen inside one
(pending doubled-quote decision), the current field and record (both
reversed) and the completed records (reversed). -/
structure ScanSt where
  inQ : Bool
  afterQ : Bool
  field : List Char
  curRec : List (List Char)
  rows : List (List (List Char))
deriving Repr, DecidableEq

/-- Reader transition outside any quoted section: a comma ends the
field, a newline ends the record, a quote at the start of a field opens
a quoted section, anything else extends the field. -/
def stepOutside (st : ScanSt) (c : Char) : ScanSt :=
  if c = ',' then
    { st with field := [], curRec := st.field.reverse :: st.curRec }
  else if c = '\n' then
    { st with
      field := []
      curRec := []
      rows := (st.field.reverse :: st.curRec).reverse :: st.rows }
  else if c = '"' ∧ st.field = [] then
    { st with inQ := true }
  else
    { st with field := c :: st.field }

/-- One reader transition. Inside quotes a quote is pended; a pended
quote followed by another quote is a literal quote, otherwise the
quoted section has ended and the character is handled outside. -/
def scanStep (st : ScanSt) (c : Char) : ScanSt :=
  if st.afterQ then
    if c = '"' then { st with afterQ := false, field := '"' :: st.field }
    else stepOutside { st with afterQ := false, inQ := false } c
  else if st.inQ then
    if c = '"' then { st with afterQ := true }
    else { st with field := c :: st.field }
  else stepOutside st c

/-- Initial reader state. -/
def initSt : ScanSt :=
  ⟨false, false, [], [], []⟩

/-- Final flush: a trailing record without its newline is completed;
input ending cleanly (right after a newline) adds nothing. -/
def finalize (st : ScanSt) : List (List (List Char)) :=
  if st.afterQ = false ∧ st.inQ = false ∧ st.field = [] ∧ st.curRec = [] then
    st.rows.reverse
  else
    ((st.field.reverse :: st.curRec).reverse :: st.rows).reverse

/-- Parse CSV text into records of fields. -/
def parseCSV (s : List Char) : List (List (List Char)) :=
  finalize (s.foldl scanStep initSt)

/-- Base-10 digits, least significant first, with explicit fuel so the
function is structurally recursive (and hence evaluates by reduction);
`decDigits n n` agrees with `Nat.digits 10 n`. -/
def decDigits : Nat → Nat → List Nat
  | 0, _ => []
  | _, 0 => []
  | fuel + 1, n + 1 => (n + 1) % 10 :: decDigits fuel ((n + 1) / 10)

/-- Decimal digits of a natural number, most significant first. -/
def printNatChars (n : Nat) : List Char :=
  if n = 0 then ['0'] else ((decDigits n n).map Nat.digitChar).reverse

/-- Decimal rendering of an integer, as pandas writes an int64 cell. -/
def printIntChars (n : Int) : List Char :=
  if n < 0 then '-' :: printNatChars n.natAbs else printNatChars n.toNat

/-- Two-digit zero padding for months and days. -/
def pad2 (n : Nat) : List Char :=
  if n < 10 then '0' :: printNatChars n else printNatChars n

/-- `YYYY-MM-DD`, as pandas renders a time-free datetime cell. -/
def dateChars (d : Date) : List Char :=
  printIntChars d.year ++ '-' :: (pad2 d.month ++ '-' :: pad2 d.day)

/-- The cells of one exported row, in the table's column order
`Date, Region, Category, Customer, Product, Quantity, TotalSales,
Country`. -/
def rowCells (r : Row) : List (List Char) :=
  [dateChars r.date, r.region.data, r.category.data, r.customer.data,
   r.product.data, printNatChars r.quantity, printIntChars r.totalSales,
   r.country.data]

/-- The header record written by `to_csv(index=False)`. -/
def headerCells : List (List Char) :=
  ["Date".data, "Region".data, "Category".data, "Customer".data,
   "Product".data, "Quantity".data, "TotalSales".data, "Country".data]

/-- `convert_df` (lines 192–194): the CSV text of the Filtered View,
header first, no index column. -/
def convert_df (v : List Row) : List Char :=
  writeCSV (headerCells :: v.map rowCells)

/-- Numeric value of a decimal digit character. -/
def digitVal (c : Char) : Nat :=
  c.toNat - 48

/-- Parse an unsigned decimal numeral. -/
def parseNatChars (l : List Char) : Option Nat :=
  if l = [] ∨ l.any (fun c => !c.isDigit) then none
  else some (l.foldl (fun a c => 10 * a + digitVal c) 0)

/-- Parse a decimal integer with optional leading minus sign. -/
def parseIntChars (l : List Char) : Option Int :=
  if l.headD ' ' = '-' then
    match parseNatChars l.tail with
    | none => none
    | some m => some (-(m : Int))
  else
    match parseNatChars l with
    | none => none
    | some m => some ((m : Int))

/-- The TotalSales sum of a re-parsed table: parse column 6 of every
data record as an integer and add the values. -/
def reparsedTotalSalesSum (recs : List (List (List Char))) : Int :=
  (recs.map fun cells => (parseIntChars (cells.getD 6 [])).getD 0).sum

/-! ### Numeral round-trip lemmas -/

/-- With enough fuel, `decDigits` computes `Nat.digits 10`. -/
lemma decDigits_eq_digits : ∀ (fuel n : Nat), n ≤ fuel →
    decDigits fuel n = Nat.digits 10 n
  | 0, 0, _ => by simp [decDigits]
  | 0, _ + 1, h => absurd h (by omega)
  | _ + 1, 0, _ => by simp [decDigits]
  | fuel + 1, n + 1, h => by
    rw [decDigits, Nat.digits_def' (by norm_num : (1 : Nat) < 10) (Nat.succ_pos n)]
    have hd : (n + 1) / 10 < n + 1 := Nat.div_lt_self (Nat.succ_pos n) (by norm_num)
    rw [decDigits_eq_digits fuel ((n + 1) / 10) (by omega)]

/-- A digit below 10 renders as a digit character. -/
lemma digitChar_isDigit {d : Nat} (hd : d < 10) :
    (Nat.digitChar d).isDigit = true := by
  interval_cases d <;> decide

/-- `digitVal` inverts `Nat.digitChar` on digits below 10. -/
lemma digitVal_digitChar {d : Nat} (hd : d < 10) :
    digitVal (Nat.digitChar d) = d := by
  interval_cases d <;> decide

/-- Folding the decimal accumulator over rendered digits recovers the
numeral's value. -/
lemma foldl_digits (ds : List Nat) (hds : ∀ d ∈ ds, d < 10) (a : Nat) :
    ((ds.map Nat.digitChar).reverse).foldl (fun acc c => 10 * acc + digitVal c) a
      = a * 10 ^ ds.length + Nat.ofDigits 10 ds := by
  induction ds generalizing a with
  | nil => simp
  | cons d ds ih =>
    have hd : d < 10 := hds d (by simp)
    have hds' : ∀ x ∈ ds, x < 10 := fun x hx => hds x (by simp [hx])
    simp only [List.map_cons, List.reverse_cons, List.foldl_append,
      List.foldl_cons, List.foldl_nil]
    rw [ih hds', digitVal_digitChar hd, Nat.ofDigits_cons,
      List.length_cons, pow_succ]
    ring

/-- A rendered natural numeral is never empty. -/
lemma printNatChars_ne_nil (n : Nat) : printNatChars n ≠ [] := by
  unfold printNatChars
  split
  · simp
  · rw [decDigits_eq_digits n n le_rfl]
    simp [Nat.digits_ne_nil_iff_ne_zero, *]

/-- Every character of a rendered natural numeral is a digit. -/
lemma printNatChars_all_digits {n : Nat} {c : Char}
    (hc : c ∈ printNatChars n) : c.isDigit = true := by
  unfold printNatChars at hc
  split at hc
  · simp at hc
    subst hc
    decide
  · rw [decDigits_eq_digits n n le_rfl] at hc
    simp only [List.mem_reverse, List.mem_map] at hc
    obtain ⟨d, hd, rfl⟩ := hc
    exact digitChar_isDigit (Nat.digits_lt_base (by norm_num) hd)

/-- Parsing inverts natural-number rendering. -/
lemma parseNat_printNat (n : Nat) : parseNatChars (printNatChars n) = some n := by
  by_cases hn : n = 0
  · subst hn
    decide
  · unfold parseNatChars
    rw [if_neg]
    · congr 1
      unfold printNatChars
      rw [if_neg hn, decDigits_eq_digits n n le_rfl]
      rw [foldl_digits _ (fun d hd => Nat.digits_lt_base (by norm_num) hd) 0]
      simp [Nat.ofDigits_digits]
    · push_neg
      refine ⟨printNatChars_ne_nil n, ?_⟩
      intro hany
      rw [List.any_eq_true] at hany
      obtain ⟨c, hc, hnd⟩ := hany
      rw [printNatChars_all_digits hc] at hnd
      exact absurd hnd (by decide)

/-- Parsing inverts integer rendering. -/
lemma parseInt_printInt (n : Int) : parseIntChars (printIntChars n) = some n := by
  by_cases hn : n < 0
  · have h1 : printIntChars n = '-' :: printNatChars n.natAbs := by
      unfold printIntChars
      rw [if_pos hn]
    rw [h1]
    unfold parseIntChars
    have h2 : ('-' :: printNatChars n.natAbs).headD ' ' = '-' := rfl
    rw [if_pos h2]
    show (match parseNatChars (printNatChars n.natAbs) with
          | none => none
          | some m => some (-(m : Int))) = some n
    rw [parseNat_printNat]
    show some (-(n.natAbs : Int)) = some n
    congr 1
    omega
  · have h1 : printIntChars n = printNatChars n.toNat := by
      unfold printIntChars
      rw [if_neg hn]
    have hhead : (printNatChars n.toNat).headD ' ' ≠ '-' := by
      cases hl : printNatChars n.toNat with
      | nil => exact absurd hl (printNatChars_ne_nil _)
      | cons c cs =>
        simp only [List.headD_cons]
        have hdig : c.isDigit = true :=
          printNatChars_all_digits (hl ▸ List.mem_cons_self c cs)
        intro hc
        rw [hc] at hdig
        exact absurd hdig (by decide)
    rw [h1]
    unfold parseIntChars
    rw [if_neg hhead]
    show (match parseNatChars (printNatChars n.toNat) with
          | none => none
          | some m => some ((m : Int))) = some n
    rw [parseNat_printNat]
    show some ((n.toNat : Int)) = some n
    congr 1
    omega

/-! ### CSV scanner round-trip lemmas -/

/-- Scanning a run of plain characters (no delimiter, quote or newline)
outside quotes just accumulates them into the current field. -/
lemma scan_plain (f : List Char)
    (hf : ∀ c ∈ f, ¬(c = ',' ∨ c = '"' ∨ c = '\n'))
    (fld : List Char) (R : List (List Char)) (S : List (List (List Char))) :
    List.foldl scanStep ⟨false, false, fld, R, S⟩ f
      = ⟨false, false, f.reverse ++ fld, R, S⟩ := by
  induction f generalizing fld with
  | nil => simp
  | cons c cs ih =>
    have hc := hf c (by simp)
    push_neg at hc
    obtain ⟨h1, h2, h3⟩ := hc
    have hstep : scanStep ⟨false, false, fld, R, S⟩ c
        = ⟨false, false, c :: fld, R, S⟩ := by
      unfold scanStep stepOutside
      simp [h1, h2, h3]
    rw [List.foldl_cons, hstep, ih (fun x hx => hf x (by simp [hx]))]
    simp

/-- Scanning the escaped body of a quoted field accumulates exactly the
original characters and stays inside the quoted section. -/
lemma scan_escQ (f : List Char) (fld : List Char) (R : List (List Char))
    (S : List (List (List Char))) :
    List.foldl scanStep ⟨true, false, fld, R, S⟩ (escQ f)
      = ⟨true, false, f.reverse ++ fld, R, S⟩ := by
  induction f generalizing fld with
  | nil => simp [escQ]
  | cons c cs ih =>
    by_cases hc : c = '"'
    · subst hc
      have e : escQ ('"' :: cs) = '"' :: '"' :: escQ cs := by
        rw [show escQ ('"' :: cs)
            = if ('"' : Char) = '"' then '"' :: '"' :: escQ cs
              else '"' :: escQ cs from rfl, if_pos rfl]
      rw [e, List.foldl_cons, List.foldl_cons]
      have h1 : scanStep ⟨true, false, fld, R, S⟩ '"' = ⟨true, true, fld, R, S⟩ := by
        unfold scanStep
        simp
      have h2 : scanStep ⟨true, true, fld, R, S⟩ '"'
          = ⟨true, false, '"' :: fld, R, S⟩ := by
        unfold scanStep
        simp
      rw [h1, h2, ih]
      simp
    · have e : escQ (c :: cs) = c :: escQ cs := by
        rw [show escQ (c :: cs)
            = if c = '"' then '"' :: '"' :: escQ cs
              else c :: escQ cs from rfl, if_neg hc]
      rw [e, List.foldl_cons]
      have h1 : scanStep ⟨true, false, fld, R, S⟩ c
          = ⟨true, false, c :: fld, R, S⟩ := by
        unfold scanStep
        simp [hc]
      rw [h1, ih]
      simp

/-- Scanning an encoded field followed by a comma flushes exactly that
field onto the current record. -/
lemma scan_encField_comma (f : List Char) (R : List (List Char))
    (S : List (List (List Char))) :
    List.foldl scanStep ⟨false, false, [], R, S⟩ (encField f ++ [','])
      = ⟨false, false, [], f :: R, S⟩ := by
  unfold encField
  by_cases hq : needsQuote f = true
  · rw [if_pos hq]
    have e : ('"' :: (escQ f ++ ['"'])) ++ [','] = '"' :: (escQ f ++ ['"', ',']) := by
      simp
    rw [e, List.foldl_cons]
    have h1 : scanStep ⟨false, false, [], R, S⟩ '"' = ⟨true, false, [], R, S⟩ := by
      unfold scanStep stepOutside
      simp
    rw [h1, List.foldl_append, scan_escQ]
    have h2 : scanStep ⟨true, false, f.reverse ++ [], R, S⟩ '"'
        = ⟨true, true, f.reverse ++ [], R, S⟩ := by
      unfold scanStep
      simp
    have h3 : scanStep ⟨true, true, f.reverse ++ [], R, S⟩ ','
        = ⟨false, false, [], f :: R, S⟩ := by
      unfold scanStep stepOutside
      simp
    simp only [List.foldl_append, List.foldl_cons, List.foldl_nil, h2, h3]
  · rw [if_neg hq]
    have hf : ∀ c ∈ f, ¬(c = ',' ∨ c = '"' ∨ c = '\n') := by
      intro c hc hor
      rw [Bool.not_eq_true, needsQuote, List.any_eq_false] at hq
      have := hq c hc
      rcases hor with h | h | h <;> simp [h] at this
    rw [List.foldl_append, scan_plain f hf [] R S]
    have h1 : scanStep ⟨false, false, f.reverse ++ [], R, S⟩ ','
        = ⟨false, false, [], f :: R, S⟩ := by
      unfold scanStep stepOutside
      simp
    simp only [List.foldl_cons, List.foldl_nil, h1]

/-- Scanning an encoded field followed by a newline flushes the field
and completes the current record. -/
lemma scan_encField_newline (f : List Char) (R : List (List Char))
    (S : List (List (List Char))) :
    List.foldl scanStep ⟨false, false, [], R, S⟩ (encField f ++ ['\n'])
      = ⟨false, false, [], [], (f :: R).reverse :: S⟩ := by
  unfold encField
  by_cases hq : needsQuote f = true
  · rw [if_pos hq]
    have e : ('"' :: (escQ f ++ ['"'])) ++ ['\n'] = '"' :: (escQ f ++ ['"', '\n']) := by
      simp
    rw [e, List.foldl_cons]
    have h1 : scanStep ⟨false, false, [], R, S⟩ '"' = ⟨true, false, [], R, S⟩ := by
      unfold scanStep stepOutside
      simp
    rw [h1, List.foldl_append, scan_escQ]
    have h2 : scanStep ⟨true, false, f.reverse ++ [], R, S⟩ '"'
        = ⟨true, true, f.reverse ++ [], R, S⟩ := by
      unfold scanStep
      simp
    have h3 : scanStep ⟨true, true, f.reverse ++ [], R, S⟩ '\n'
        = ⟨false, false, [], [], (f :: R).reverse :: S⟩ := by
      unfold scanStep stepOutside
      simp
    simp only [List.foldl_append, List.foldl_cons, List.foldl_nil, h2, h3]
  · rw [if_neg hq]
    have hf : ∀ c ∈ f, ¬(c = ',' ∨ c = '"' ∨ c = '\n') := by
      intro c hc hor
      rw [Bool.not_eq_true, needsQuote, List.any_eq_false] at hq
      have := hq c hc
      rcases hor with h | h | h <;> simp [h] at this
    rw [List.foldl_append, scan_plain f hf [] R S]
    have h1 : scanStep ⟨false, false, f.reverse ++ [], R, S⟩ '\n'
        = ⟨false, false, [], [], (f :: R).reverse :: S⟩ := by
      unfold scanStep stepOutside
      simp
    simp only [List.foldl_cons, List.foldl_nil, h1]

/-- Scanning a whole encoded record from a clean state, with part of the
record (`R`, reversed) already flushed, completes the record. -/
lemma scan_record (fs : List (List Char)) (R : List (List Char))
    (S : List (List (List Char))) (hfs : fs ≠ []) :
    List.foldl scanStep ⟨false, false, [], R, S⟩ (encRecord fs)
      = ⟨false, false, [], [], (R.reverse ++ fs) :: S⟩ := by
  induction fs generalizing R with
  | nil => exact absurd rfl hfs
  | cons f rest ih =>
    cases rest with
    | nil =>
      have e : encRecord [f] = encField f ++ ['\n'] := rfl
      rw [e, scan_encField_newline]
      simp
    | cons g fs' =>
      have e : encRecord (f :: g :: fs')
          = (encField f ++ [',']) ++ encRecord (g :: fs') := by
        unfold encRecord
        rw [List.map_cons]
        rw [show joinFields (encField f :: (g :: fs').map encField)
            = encField f ++ ',' :: joinFields ((g :: fs').map encField) from rfl]
        simp
      rw [e, List.foldl_append, scan_encField_comma, ih (f :: R) (by simp)]
      simp

/-- Scanning the whole CSV text accumulates exactly the written
records. -/
lemma scan_records (records : List (List (List Char)))
    (h : ∀ rec ∈ records, rec ≠ []) (S : List (List (List Char))) :
    List.foldl scanStep ⟨false, false, [], [], S⟩ ((records.map encRecord).flatten)
      = ⟨false, false, [], [], records.reverse ++ S⟩ := by
  induction records generalizing S with
  | nil => simp
  | cons rec recs ih =>
    rw [List.map_cons, List.flatten_cons, List.foldl_append,
      scan_record rec [] S (h rec (by simp))]
    have e : (([] : List (List Char)).reverse ++ rec) :: S = rec :: S := by simp
    rw [e, ih (fun x hx => h x (by simp [hx])) (rec :: S)]
    simp

/-- Re-parsing the written CSV text recovers every record exactly. -/
lemma parseCSV_writeCSV (records : List (List (List Char)))
    (h : ∀ rec ∈ records, rec ≠ []) :
    parseCSV (writeCSV records) = records := by
  unfold parseCSV writeCSV initSt
  rw [scan_records records h []]
  unfold finalize
  simp

/-- Column 6 of an exported row is its rendered TotalSales. -/
lemma rowCells_getD6 (r : Row) :
    (rowCells r).getD 6 [] = printIntChars r.totalSales := rfl

/-- Summing the parsed TotalSales column of the exported rows recovers
the view's total. -/
lemma reparsed_sum (v : List Row) :
    reparsedTotalSalesSum (v.map rowCells) = total_sales v := by
  induction v with
  | nil => rfl
  | cons r rs ih =>
    unfold reparsedTotalSalesSum at ih ⊢
    rw [List.map_cons, List.map_cons, List.sum_cons, ih,
      rowCells_getD6, parseInt_printInt]
    simp [total_sales]

/-- C8: exporting the Filtered View to CSV (header, no index, same
schema plus the synthesized Country column) and re-parsing the export
recovers every record exactly; in particular the re-parsed table has
the same row count and the same TotalSales sum as the view. -/
theorem c8_csv_roundtrip (v : List Row) :
    parseCSV (convert_df v) = headerCells :: v.map rowCells ∧
    ((parseCSV (convert_df v)).drop 1).length = v.length ∧
    reparsedTotalSalesSum ((parseCSV (convert_df v)).drop 1) = total_sales v := by
  have h : parseCSV (convert_df v) = headerCells :: v.map rowCells := by
    unfold convert_df
    apply parseCSV_writeCSV
    intro rec hrec
    rcases List.mem_cons.mp hrec with hh | hh
    · subst hh
      simp [headerCells]
    · obtain ⟨r, _, hrr⟩ := List.mem_map.mp hh
      rw [← hrr]
      simp [rowCells]
  refine ⟨h, ?_, ?_⟩
  · rw [h]
    simp
  · rw [h]
    simpa using reparsed_sum v

end Dash
